import Mathlib

/-!
Shallow embedding of the dual-backend progress synchronization core of the
vocab_master repository (src/js/storage.js `StorageService`, plus
`Utils.calculateStreak` and the statistics reads it serves).

Modelling conventions:
* JavaScript day-granular date strings ("YYYY-MM-DD") are modelled as integer
  day numbers; string equality of two such dates is day-number equality, and
  the millisecond difference divided by one day (after midnight
  normalisation, as `Utils.calculateStreak` does) is integer subtraction.
* The remote API (`ApiClient`) is modelled as an oracle `RemoteEnv`: the
  outcome of the n-th remote attempt of the session.  `remoteCalls` counts
  attempts; `saveCalls` counts `save()` invocations (ghost fields).
* Remote and local payloads are modelled as complete typed `Aggregate`
  values, so the `_deepMerge(getDefault(), payload)` performed by `get()` /
  `_getLocal()` returns the payload itself.  The untyped recursive
  `_deepMerge` is embedded separately (`Json`, `deepMerge`) and its
  keep-stored-keys / fill-missing-keys behaviour is verified there.
* `localStorage` is modelled by `localData` (the parsed per-user record) and
  `localBroken` (the medium throws on access even though the one-time private
  mode probe passed); `isPrivateMode` is the probed flag.
-/

namespace VocabMaster

/-- JavaScript preference values (the open `preferences` bag holds numbers,
strings, booleans, string arrays and null). -/
inductive JVal where
  | null
  | bool (b : Bool)
  | num (q : Rat)
  | str (s : String)
  | strs (l : List String)
deriving DecidableEq

/-- JavaScript truthiness test (`!value`): null/undefined, false, 0 and the
empty string are falsy; arrays are always truthy. -/
def JVal.falsy : JVal → Bool
  | .null => true
  | .bool b => !b
  | .num q => q = 0
  | .str s => s = ""
  | .strs _ => false

/-- `!value` where `value = data.preferences[key]` may be `undefined`. -/
def jvOptFalsy : Option JVal → Bool
  | none => true
  | some v => v.falsy

/-- Association-list view of a JavaScript object used for `preferences`:
`obj[k] = v` overwrites in place when the key exists, else appends. -/
def setPref (k : String) (v : JVal) : List (String × JVal) → List (String × JVal)
  | [] => [(k, v)]
  | p :: rest => if p.1 = k then (k, v) :: rest else p :: setPref k v rest

/-- `obj[k]` on the preference bag (`none` models `undefined`). -/
def lookupPref : List (String × JVal) → String → Option JVal
  | [], _ => none
  | p :: rest, k => if p.1 = k then some p.2 else lookupPref rest k

/-- Per-word quiz tally `{correct, attempts}`. -/
structure QuizScore where
  correct : Nat
  attempts : Nat
deriving DecidableEq

/-- A session record as built by `addSession`. -/
structure SessionRec where
  date : Int
  duration : Nat
  wordsStudied : Nat
  wordsLearned : Nat
  quizzesTaken : Nat
  quizScore : Nat
deriving DecidableEq

/-- The `stats` block of the Progress Aggregate. -/
structure Stats where
  totalTimeSpent : Nat
  currentStreak : Nat
  longestStreak : Nat
  lastStudyDate : Option Int
  totalWordsLearned : Nat
  totalQuizzesTaken : Nat
deriving DecidableEq

/-- The Progress Aggregate (`getDefault()` shape). -/
structure Aggregate where
  learned : List Int
  inProgress : List Int
  quizScores : List (Int × QuizScore)
  sessions : List SessionRec
  preferences : List (String × JVal)
  stats : Stats
deriving DecidableEq

/-- `StorageService.getDefault()`. -/
def getDefault : Aggregate where
  learned := []
  inProgress := []
  quizScores := []
  sessions := []
  preferences :=
    [("speechRate", .num (9 / 10)),
     ("theme", .str "light"),
     ("autoPlay", .bool false),
     ("showProgress", .bool true),
     ("translationLanguages", .strs ["Hy"]),
     ("reverseMode", .bool false),
     ("showFrontTranslation", .bool true),
     ("enableSwipe", .bool true),
     ("certificationKey", .null)]
  stats :=
    { totalTimeSpent := 0
      currentStreak := 0
      longestStreak := 0
      lastStudyDate := none
      totalWordsLearned := 0
      totalQuizzesTaken := 0 }

/-- Outcome of one remote (`ApiClient`) call: success (with the fetched
aggregate, ignored by non-fetch calls), a failure whose message contains
"User not found", or any other failure (network/timeout/server). -/
inductive RemoteOutcome where
  | ok (payload : Aggregate)
  | errNotFound
  | errOther
deriving DecidableEq

/-- Remote oracle: outcome of the n-th remote attempt of the session. -/
def RemoteEnv : Type := Nat → RemoteOutcome

/-- The `StorageService` mutable state relevant to progress storage, plus the
ghost counters `remoteCalls` and `saveCalls`. -/
structure StoreState where
  progressCache : Option Aggregate
  useMongoDB : Bool
  mongoDisabled : Bool
  isPrivateMode : Bool
  localData : Option Aggregate
  localBroken : Bool
  remoteCalls : Nat
  saveCalls : Nat
deriving DecidableEq

/-- `disableMongoFallback(reason, error)`. -/
def disableMongoFallback (st : StoreState) : StoreState :=
  if st.mongoDisabled then st
  else { st with mongoDisabled := true, useMongoDB := false }

/-- Perform one remote attempt: consult the oracle and bump the counter. -/
def remoteCall (env : RemoteEnv) (st : StoreState) : RemoteOutcome × StoreState :=
  (env st.remoteCalls, { st with remoteCalls := st.remoteCalls + 1 })

/-- `_saveLocal(data)`: skipped (reported as success) in private mode; a
throwing medium flips `isPrivateMode` and reports failure. -/
def saveLocal (st : StoreState) (data : Aggregate) : Bool × StoreState :=
  if st.isPrivateMode then (true, st)
  else if st.localBroken then (false, { st with isPrivateMode := true })
  else (true, { st with localData := some data })

/-- `_getLocal()`: defaults in private mode or on a throwing read (which also
flips `isPrivateMode`) or when no record exists; otherwise the stored record
deep-merged over defaults (identity on complete records) is cached and
returned. -/
def getLocal (st : StoreState) : Aggregate × StoreState :=
  if st.isPrivateMode then (getDefault, st)
  else if st.localBroken then (getDefault, { st with isPrivateMode := true })
  else
    match st.localData with
    | none => (getDefault, st)
    | some parsed => (parsed, { st with progressCache := some parsed })

/-- `get()`: cache-first read; on a cache miss with MongoDB enabled, one
remote fetch whose catch block first calls `disableMongoFallback`, then
returns cached defaults when the error says "User not found", else falls back
to `_getLocal()`. -/
def get (env : RemoteEnv) (st : StoreState) : Aggregate × StoreState :=
  match st.progressCache with
  | some a => (a, st)
  | none =>
    if st.useMongoDB then
      let r := remoteCall env st
      match r.1 with
      | .ok payload =>
        let st1 := { r.2 with progressCache := some payload }
        (payload, (saveLocal st1 payload).2)
      | .errNotFound =>
        let st1 := disableMongoFallback r.2
        (getDefault, { st1 with progressCache := some getDefault })
      | .errOther =>
        getLocal (disableMongoFallback r.2)
    else getLocal st

/-- `save(data)`: cache updated first, then remote write (failure disables
MongoDB and falls back to a local write), else a local write. -/
def save (env : RemoteEnv) (st : StoreState) (data : Aggregate) : Bool × StoreState :=
  let st0 := { st with progressCache := some data, saveCalls := st.saveCalls + 1 }
  if st0.useMongoDB then
    let r := remoteCall env st0
    match r.1 with
    | .ok _ => (true, (saveLocal r.2 data).2)
    | _ => saveLocal (disableMongoFallback r.2) data
  else saveLocal st0 data

/-- The in-memory mutation of `markLearned` (push the id, then set
`stats.totalWordsLearned = learned.length`). -/
def markLearnedData (data : Aggregate) (wordId : Int) : Aggregate :=
  let learned := data.learned ++ [wordId]
  { data with learned := learned
              stats := { data.stats with totalWordsLearned := learned.length } }

/-- The in-memory mutation of `unmarkLearned` (splice out the first
occurrence, then set `stats.totalWordsLearned = learned.length`). -/
def unmarkLearnedData (data : Aggregate) (wordId : Int) : Aggregate :=
  let learned := data.learned.erase wordId
  { data with learned := learned
              stats := { data.stats with totalWordsLearned := learned.length } }

/-- `markLearned(wordId)`. -/
def markLearned (env : RemoteEnv) (st : StoreState) (wordId : Int) : Bool × StoreState :=
  let g := get env st
  let data := g.1
  let st1 := g.2
  if wordId ∈ data.learned then (false, st1)
  else
    if st1.useMongoDB then
      let r := remoteCall env st1
      match r.1 with
      | .ok _ =>
        let data1 := markLearnedData data wordId
        let st2 := { r.2 with progressCache := some data1 }
        (true, (saveLocal st2 data1).2)
      | _ =>
        let st2 := disableMongoFallback r.2
        (true, (save env st2 (markLearnedData data wordId)).2)
    else (true, (save env st1 (markLearnedData data wordId)).2)

/-- `unmarkLearned(wordId)`. -/
def unmarkLearned (env : RemoteEnv) (st : StoreState) (wordId : Int) : Bool × StoreState :=
  let g := get env st
  let data := g.1
  let st1 := g.2
  if wordId ∈ data.learned then
    if st1.useMongoDB then
      let r := remoteCall env st1
      match r.1 with
      | .ok _ =>
        let data1 := unmarkLearnedData data wordId
        let st2 := { r.2 with progressCache := some data1 }
        (true, (saveLocal st2 data1).2)
      | _ =>
        let st2 := disableMongoFallback r.2
        (true, (save env st2 (unmarkLearnedData data wordId)).2)
    else (true, (save env st1 (unmarkLearnedData data wordId)).2)
  else (false, st1)

/-- Lookup in the `quizScores` map. -/
def lookupScore : List (Int × QuizScore) → Int → Option QuizScore
  | [], _ => none
  | p :: rest, w => if p.1 = w then some p.2 else lookupScore rest w

/-- `scores[w] = q` (overwrite in place or append). -/
def setScore (w : Int) (q : QuizScore) : List (Int × QuizScore) → List (Int × QuizScore)
  | [] => [(w, q)]
  | p :: rest => if p.1 = w then (w, q) :: rest else p :: setScore w q rest

/-- The in-memory mutation of `updateQuizScore`: create the `{0,0}` entry if
absent, bump `attempts`, and bump `correct` when the answer was correct. -/
def bumpQuizScore (data : Aggregate) (wordId : Int) (correct : Bool) : Aggregate :=
  let q0 := (lookupScore data.quizScores wordId).getD ⟨0, 0⟩
  let q1 : QuizScore :=
    { correct := q0.correct + (if correct then 1 else 0), attempts := q0.attempts + 1 }
  { data with quizScores := setScore wordId q1 data.quizScores }

/-- `updateQuizScore(wordId, correct)`. -/
def updateQuizScore (env : RemoteEnv) (st : StoreState) (wordId : Int) (correct : Bool) :
    StoreState :=
  if st.useMongoDB then
    let r := remoteCall env st
    match r.1 with
    | .ok _ =>
      let g := get env r.2
      let data := bumpQuizScore g.1 wordId correct
      let st2 := { g.2 with progressCache := some data }
      (saveLocal st2 data).2
    | _ =>
      let st1 := disableMongoFallback r.2
      let g := get env st1
      let data := bumpQuizScore g.1 wordId correct
      (save env g.2 data).2
  else
    let g := get env st
    let data := bumpQuizScore g.1 wordId correct
    (save env g.2 data).2

/-- The caller-supplied `sessionData` (missing fields default to 0 through
`|| 0`). -/
structure SessionInput where
  duration : Option Nat
  wordsStudied : Option Nat
  wordsLearned : Option Nat
  quizzesTaken : Option Nat
  quizScore : Option Nat
deriving DecidableEq

/-- The session record `addSession` builds (`date: Utils.getCurrentDate()`). -/
def mkSession (today : Int) (sd : SessionInput) : SessionRec :=
  { date := today
    duration := sd.duration.getD 0
    wordsStudied := sd.wordsStudied.getD 0
    wordsLearned := sd.wordsLearned.getD 0
    quizzesTaken := sd.quizzesTaken.getD 0
    quizScore := sd.quizScore.getD 0 }

/-- The in-memory mutation of `addSession`: unshift the record, cap the list
at 30, add the duration to `totalTimeSpent`, and add `quizzesTaken` to
`totalQuizzesTaken` when the input field is truthy. -/
def addSessionData (data : Aggregate) (session : SessionRec) (quizzesTaken : Option Nat) :
    Aggregate :=
  let sessions0 := session :: data.sessions
  let sessions := if sessions0.length > 30 then sessions0.take 30 else sessions0
  let stats0 := { data.stats with totalTimeSpent := data.stats.totalTimeSpent + session.duration }
  let stats :=
    match quizzesTaken with
    | some q => if q ≠ 0 then { stats0 with totalQuizzesTaken := stats0.totalQuizzesTaken + q } else stats0
    | none => stats0
  { data with sessions := sessions, stats := stats }

/-- `addSession(sessionData)`. -/
def addSession (env : RemoteEnv) (st : StoreState) (today : Int) (sd : SessionInput) :
    StoreState :=
  let session := mkSession today sd
  if st.useMongoDB then
    let r := remoteCall env st
    match r.1 with
    | .ok _ =>
      let g := get env r.2
      let data := addSessionData g.1 session sd.quizzesTaken
      let st2 := { g.2 with progressCache := some data }
      (saveLocal st2 data).2
    | _ =>
      let st1 := disableMongoFallback r.2
      let g := get env st1
      let data := addSessionData g.1 session sd.quizzesTaken
      (save env g.2 data).2
  else
    let g := get env st
    let data := addSessionData g.1 session sd.quizzesTaken
    (save env g.2 data).2

/-- `Utils.calculateStreak(lastStudyDate)` evaluated against `today`: falsy
when there is no prior date; otherwise true exactly when the midnight-
normalised day difference is 0 or 1. -/
def calculateStreak (lastStudyDate : Option Int) (today : Int) : Bool :=
  match lastStudyDate with
  | none => false
  | some last =>
    let diffDays := today - last
    diffDays == 0 || diffDays == 1

/-- The in-memory mutation of `updateStreak` past its same-day guard:
increment or reset `currentStreak`, raise `longestStreak` when exceeded, and
stamp `lastStudyDate = today`. -/
def updateStreakData (data : Aggregate) (today : Int) : Aggregate :=
  let canContinue := calculateStreak data.stats.lastStudyDate today
  let current := if canContinue then data.stats.currentStreak + 1 else 1
  let longest := if current > data.stats.longestStreak then current else data.stats.longestStreak
  { data with stats := { data.stats with
      currentStreak := current, longestStreak := longest, lastStudyDate := some today } }

/-- Aggregate-level view of a whole `updateStreak()` call: unchanged when
`lastStudyDate` is already today, else `updateStreakData`. -/
def updateStreakAgg (data : Aggregate) (today : Int) : Aggregate :=
  if data.stats.lastStudyDate = some today then data else updateStreakData data today

/-- `updateStreak()`. -/
def updateStreak (env : RemoteEnv) (st : StoreState) (today : Int) : Nat × StoreState :=
  let g := get env st
  let data := g.1
  let st1 := g.2
  if data.stats.lastStudyDate = some today then (data.stats.currentStreak, st1)
  else
    let data1 := updateStreakData data today
    if st1.useMongoDB then
      let r := remoteCall env st1
      match r.1 with
      | .ok _ =>
        let st2 := { r.2 with progressCache := some data1 }
        (data1.stats.currentStreak, (saveLocal st2 data1).2)
      | _ =>
        let st2 := disableMongoFallback r.2
        (data1.stats.currentStreak, (save env st2 data1).2)
    else (data1.stats.currentStreak, (save env st1 data1).2)

/-- `updatePreference(key, value)`. -/
def updatePreference (env : RemoteEnv) (st : StoreState) (k : String) (v : JVal) :
    StoreState :=
  let g := get env st
  let data := { g.1 with preferences := setPref k v g.1.preferences }
  let st1 := g.2
  if st1.useMongoDB then
    let r := remoteCall env st1
    match r.1 with
    | .ok _ =>
      let st2 := { r.2 with progressCache := some data }
      (saveLocal st2 data).2
    | _ =>
      let st2 := disableMongoFallback r.2
      (save env st2 data).2
  else (save env st1 data).2

/-- `getPreference(key)`: the plain preference read, plus the
certification-key-only localStorage recovery path (remote mode on, not
private, cached value falsy). -/
def getPreference (env : RemoteEnv) (st : StoreState) (k : String) :
    Option JVal × StoreState :=
  let g := get env st
  let data := g.1
  let st1 := g.2
  let value := lookupPref data.preferences k
  if k = "certificationKey" ∧ jvOptFalsy value ∧ st1.useMongoDB ∧ ¬st1.isPrivateMode then
    if st1.localBroken then (value, st1)
    else
      match st1.localData with
      | none => (value, st1)
      | some parsed =>
        match lookupPref parsed.preferences "certificationKey" with
        | some localCertKey =>
          if localCertKey.falsy then (value, st1)
          else
            let data1 := { data with
              preferences := setPref "certificationKey" localCertKey data.preferences }
            (some localCertKey, { st1 with progressCache := some data1 })
        | none => (value, st1)
  else (value, st1)

/-- `getStreak()` (the read behind the stats screen's streak display): resets
a stale positive streak to 0 and saves. -/
def getStreak (env : RemoteEnv) (st : StoreState) (today : Int) : Nat × StoreState :=
  let g := get env st
  let data := g.1
  let st1 := g.2
  if data.stats.lastStudyDate = some today then (data.stats.currentStreak, st1)
  else
    let canContinue := calculateStreak data.stats.lastStudyDate today
    if !canContinue ∧ data.stats.currentStreak > 0 then
      let data1 := { data with stats := { data.stats with currentStreak := 0 } }
      (data1.stats.currentStreak, (save env st1 data1).2)
    else (data.stats.currentStreak, st1)

/-- `Utils.calculatePercentage(part, total)`; `Math.round((p/t)*100)` in exact
arithmetic is `(200 p + t) / (2 t)` rounded down. -/
def calculatePercentage (part total : Nat) : Nat :=
  if total = 0 then 0 else (200 * part + total) / (2 * total)

/-- Pure computation behind `getWordsLearnedThisWeek`: sum of `wordsLearned`
over sessions dated within the last 7 days. -/
def wordsLearnedThisWeek (data : Aggregate) (today : Int) : Nat :=
  (data.sessions.filter (fun s => today - 7 ≤ s.date)).foldl
    (fun c s => c + s.wordsLearned) 0

/-- `getWordsLearnedThisWeek()`. -/
def getWordsLearnedThisWeek (env : RemoteEnv) (st : StoreState) (today : Int) :
    Nat × StoreState :=
  let g := get env st
  (wordsLearnedThisWeek g.1 today, g.2)

/-- Pure computation behind `getAverageQuizScore`: 0 with no entries or no
attempts, else `Math.round(100 * totalCorrect / totalAttempts)`. -/
def averageQuizScore (data : Aggregate) : Nat :=
  let scores := data.quizScores.map Prod.snd
  if scores.length = 0 then 0
  else
    let totalCorrect := scores.foldl (fun c s => c + s.correct) 0
    let totalAttempts := scores.foldl (fun c s => c + s.attempts) 0
    if totalAttempts = 0 then 0
    else (200 * totalCorrect + totalAttempts) / (2 * totalAttempts)

/-- `getAverageQuizScore()`. -/
def getAverageQuizScore (env : RemoteEnv) (st : StoreState) : Nat × StoreState :=
  let g := get env st
  (averageQuizScore g.1, g.2)

/-- `getLearnedCount()`: `(await get()).learned.length`. -/
def getLearnedCount (env : RemoteEnv) (st : StoreState) : Nat × StoreState :=
  let g := get env st
  (g.1.learned.length, g.2)

/-- The percentage-learned figure of `DataService.getStatistics()`:
`Utils.calculatePercentage(StorageService.getLearnedCount(), total)` where
`total` is the loaded vocabulary size. -/
def percentageLearned (env : RemoteEnv) (st : StoreState) (total : Nat) : Nat × StoreState :=
  let g := getLearnedCount env st
  (calculatePercentage g.1 total, g.2)

/-- One call to a Store operation of the public surface relevant to the
degraded-mode guarantee (mutations and reads that may touch the remote). -/
inductive Op where
  | opGet
  | opSave (a : Aggregate)
  | opMarkLearned (wordId : Int)
  | opUnmarkLearned (wordId : Int)
  | opUpdateQuizScore (wordId : Int) (correct : Bool)
  | opAddSession (today : Int) (sd : SessionInput)
  | opUpdateStreak (today : Int)
  | opUpdatePreference (k : String) (v : JVal)

/-- State transition of one Store call (return value dropped). -/
def stepOp (env : RemoteEnv) (st : StoreState) : Op → StoreState
  | .opGet => (get env st).2
  | .opSave a => (save env st a).2
  | .opMarkLearned w => (markLearned env st w).2
  | .opUnmarkLearned w => (unmarkLearned env st w).2
  | .opUpdateQuizScore w c => updateQuizScore env st w c
  | .opAddSession today sd => addSession env st today sd
  | .opUpdateStreak today => (updateStreak env st today).2
  | .opUpdatePreference k v => updatePreference env st k v

/-- Run a sequence of Store calls in order. -/
def runOps (env : RemoteEnv) (st : StoreState) : List Op → StoreState
  | [] => st
  | op :: rest => runOps env (stepOp env st op) rest

/-- A call to `markLearned` or `unmarkLearned` (the mutations of `learned`). -/
inductive MUOp where
  | mark (wordId : Int)
  | unmark (wordId : Int)
deriving DecidableEq

/-- Run a sequence of `markLearned`/`unmarkLearned` calls in order. -/
def runMU (env : RemoteEnv) (st : StoreState) : List MUOp → StoreState
  | [] => st
  | .mark w :: rest => runMU env (markLearned env st w).2 rest
  | .unmark w :: rest => runMU env (unmarkLearned env st w).2 rest

/-- The learned-count invariant: `stats.totalWordsLearned == |learned|`. -/
def aggInv (a : Aggregate) : Prop :=
  a.stats.totalWordsLearned = a.learned.length

/-- Every aggregate held by the Store (cache and local record) satisfies the
learned-count invariant. -/
def stateInv (st : StoreState) : Prop :=
  (∀ a, st.progressCache = some a → aggInv a) ∧
  (∀ a, st.localData = some a → aggInv a)

/-- Every aggregate the remote can return satisfies the learned-count
invariant. -/
def envInv (env : RemoteEnv) : Prop :=
  ∀ n a, env n = RemoteOutcome.ok a → aggInv a

/-- Untyped JSON values, for the recursive `_deepMerge` exactly as written. -/
inductive Json where
  | null
  | bool (b : Bool)
  | num (q : Rat)
  | str (s : String)
  | arr (elems : List Json)
  | obj (fields : List (String × Json))

/-- Own-property list of a JS value (`{...target}` / `for key in source`
iterate nothing on non-objects). -/
def objFields : Json → List (String × Json)
  | .obj fs => fs
  | _ => []

/-- `source[key] && typeof source[key] === 'object' && !Array.isArray(...)`:
null is falsy and arrays are excluded, so exactly plain objects qualify. -/
def isMergeObj : Json → Bool
  | .obj _ => true
  | _ => false

/-- JS truthiness on JSON values. -/
def jfalsy : Json → Bool
  | .null => true
  | .bool b => !b
  | .num q => q = 0
  | .str s => s = ""
  | .arr _ => false
  | .obj _ => false

/-- `fields[k]` (first occurrence; JS object keys are unique). -/
def lookupField : List (String × Json) → String → Option Json
  | [], _ => none
  | p :: rest, k => if p.1 = k then some p.2 else lookupField rest k

/-- `result[k] = v`: overwrite in place when the key exists, else append. -/
def setField (k : String) (v : Json) : List (String × Json) → List (String × Json)
  | [] => [(k, v)]
  | p :: rest => if p.1 = k then (k, v) :: rest else p :: setField k v rest

/-- `target[key] || {}`. -/
def targetField (t : Json) (k : String) : Json :=
  match lookupField (objFields t) k with
  | some v => if jfalsy v then .obj [] else v
  | none => .obj []

/-- The loop body of `_deepMerge`: fold the source fields over the result
(initially a copy of the target), recursing on plain-object values against
`target[key] || {}`. -/
def mergeLoop (t : Json) (result : List (String × Json)) :
    List (String × Json) → List (String × Json)
  | [] => result
  | (k, .obj vfs) :: rest =>
    let t' := targetField t k
    mergeLoop t (setField k (.obj (mergeLoop t' (objFields t') vfs)) result) rest
  | (k, v) :: rest => mergeLoop t (setField k v result) rest
termination_by l => sizeOf l
decreasing_by all_goals simp_wf <;> omega

/-- `_deepMerge(target, source)`. -/
def deepMerge (target source : Json) : Json :=
  .obj (mergeLoop target (objFields target) (objFields source))

/-- What `_deepMerge` stores for a source field: plain objects are merged
recursively against `target[key] || {}`, everything else is taken verbatim
from the source. -/
def mergeVal (t : Json) (k : String) (v : Json) : Json :=
  if isMergeObj v then deepMerge (targetField t k) v else v

/-- The default `preferences` object in raw JSON shape. -/
def defaultPrefsJson : Json :=
  .obj
    [("speechRate", .num (9 / 10)),
     ("theme", .str "light"),
     ("autoPlay", .bool false),
     ("showProgress", .bool true),
     ("translationLanguages", .arr [.str "Hy"]),
     ("reverseMode", .bool false),
     ("showFrontTranslation", .bool true),
     ("enableSwipe", .bool true),
     ("certificationKey", .null)]

/-- `getDefault()` in its raw JSON shape (for deep-merge statements). -/
def defaultJson : Json :=
  .obj
    [("learned", .arr []),
     ("inProgress", .arr []),
     ("quizScores", .obj []),
     ("sessions", .arr []),
     ("preferences", defaultPrefsJson),
     ("stats", .obj
       [("totalTimeSpent", .num 0),
        ("currentStreak", .num 0),
        ("longestStreak", .num 0),
        ("lastStudyDate", .null),
        ("totalWordsLearned", .num 0),
        ("totalQuizzesTaken", .num 0)])]

/-- Sequential `addSession` calls seen at the aggregate level (the session
list is transformed identically on both the fine-grained-remote branch and
the `save()` fallback branch). -/
def foldAddSessions (data : Aggregate) (recs : List SessionRec) : Aggregate :=
  recs.foldl (fun d s => addSessionData d s none) data

/-- A remote that always answers successfully with a default record. -/
def envOK : RemoteEnv := fun _ => .ok getDefault

/-- A remote that always fails with "User not found". -/
def envNF : RemoteEnv := fun _ => .errNotFound

/-- A remote that always fails with a transport error. -/
def envErr : RemoteEnv := fun _ => .errOther

/-- A fresh MongoDB-mode session right after `init()`: empty cache, empty
local record, working local medium. -/
def stFresh : StoreState :=
  { progressCache := none
    useMongoDB := true
    mongoDisabled := false
    isPrivateMode := false
    localData := none
    localBroken := false
    remoteCalls := 0
    saveCalls := 0 }

/-- A session in which a remote failure has already tripped
`disableMongoFallback`. -/
def stDisabled : StoreState :=
  { stFresh with useMongoDB := false, mongoDisabled := true }

/-- An aggregate with a stale positive streak (last studied on day 0). -/
def staleAgg : Aggregate :=
  { getDefault with stats :=
      { getDefault.stats with currentStreak := 5, longestStreak := 5, lastStudyDate := some 0 } }

/-- A warm MongoDB-mode session whose cached aggregate is `staleAgg`. -/
def stStale : StoreState := { stFresh with progressCache := some staleAgg }

/-- An aggregate whose last study date is day 4 (yesterday relative to 5). -/
def yesterdayAgg : Aggregate :=
  { getDefault with stats :=
      { getDefault.stats with currentStreak := 2, longestStreak := 2, lastStudyDate := some 4 } }

/-- A sample session input. -/
def sampleInput : SessionInput :=
  { duration := some 15
    wordsStudied := some 3
    wordsLearned := some 1
    quizzesTaken := none
    quizScore := none }

/-- A sample session record. -/
def sampleSession : SessionRec := mkSession 0 sampleInput

/-- A local backup record that still carries a certification key. -/
def backupAgg : Aggregate :=
  { getDefault with
      preferences := setPref "certificationKey" (JVal.str "CERT-1") getDefault.preferences }

/-- A warm MongoDB-mode session whose cache lacks a certification key while
the local backup has one. -/
def stCert : StoreState :=
  { stFresh with progressCache := some getDefault, localData := some backupAgg }

/-- A warm MongoDB-mode session caching the default aggregate. -/
def stWarm : StoreState := { stFresh with progressCache := some getDefault }

/-- A sample sequence touching every public Store operation. -/
def c1Ops : List Op :=
  [Op.opGet, Op.opMarkLearned 7, Op.opSave getDefault, Op.opUpdateStreak 5,
   Op.opAddSession 5 sampleInput, Op.opUpdateQuizScore 7 true,
   Op.opUnmarkLearned 7, Op.opUpdatePreference "theme" (JVal.str "dark")]

/-- A sample sequence of `markLearned`/`unmarkLearned` calls. -/
def c4Ops : List MUOp := [MUOp.mark 1, MUOp.mark 1, MUOp.unmark 2, MUOp.unmark 1]

theorem saveLocal_pres (st : StoreState) (d : Aggregate) :
    ((saveLocal st d).2).useMongoDB = st.useMongoDB ∧
    ((saveLocal st d).2).mongoDisabled = st.mongoDisabled ∧
    ((saveLocal st d).2).remoteCalls = st.remoteCalls ∧
    ((saveLocal st d).2).saveCalls = st.saveCalls ∧
    ((saveLocal st d).2).progressCache = st.progressCache := by
  unfold saveLocal
  split
  · exact ⟨rfl, rfl, rfl, rfl, rfl⟩
  split
  · exact ⟨rfl, rfl, rfl, rfl, rfl⟩
  · exact ⟨rfl, rfl, rfl, rfl, rfl⟩

theorem getLocal_pres (st : StoreState) :
    ((getLocal st).2).useMongoDB = st.useMongoDB ∧
    ((getLocal st).2).mongoDisabled = st.mongoDisabled ∧
    ((getLocal st).2).remoteCalls = st.remoteCalls ∧
    ((getLocal st).2).saveCalls = st.saveCalls ∧
    ((getLocal st).2).localData = st.localData := by
  unfold getLocal
  split
  · exact ⟨rfl, rfl, rfl, rfl, rfl⟩
  split
  · exact ⟨rfl, rfl, rfl, rfl, rfl⟩
  split
  · exact ⟨rfl, rfl, rfl, rfl, rfl⟩
  · exact ⟨rfl, rfl, rfl, rfl, rfl⟩

theorem disableMongo_pres (st : StoreState) :
    (disableMongoFallback st).progressCache = st.progressCache ∧
    (disableMongoFallback st).localData = st.localData ∧
    (disableMongoFallback st).remoteCalls = st.remoteCalls ∧
    (disableMongoFallback st).saveCalls = st.saveCalls ∧
    (disableMongoFallback st).isPrivateMode = st.isPrivateMode ∧
    (disableMongoFallback st).localBroken = st.localBroken := by
  unfold disableMongoFallback
  split
  · exact ⟨rfl, rfl, rfl, rfl, rfl, rfl⟩
  · exact ⟨rfl, rfl, rfl, rfl, rfl, rfl⟩

theorem get_cached (env : RemoteEnv) (st : StoreState) (a : Aggregate)
    (h : st.progressCache = some a) : get env st = (a, st) := by
  unfold get
  rw [h]

theorem get_disabled (env : RemoteEnv) (st : StoreState) (h : st.useMongoDB = false) :
    ((get env st).2).useMongoDB = false ∧
    ((get env st).2).remoteCalls = st.remoteCalls := by
  unfold get
  cases hc : st.progressCache with
  | some a => exact ⟨h, rfl⟩
  | none =>
    rw [h]
    simp only [Bool.false_eq_true, if_false]
    have hp := getLocal_pres st
    exact ⟨hp.1.trans h, hp.2.2.1⟩

theorem save_disabled (env : RemoteEnv) (st : StoreState) (d : Aggregate)
    (h : st.useMongoDB = false) :
    ((save env st d).2).useMongoDB = false ∧
    ((save env st d).2).remoteCalls = st.remoteCalls := by
  simp only [save, h, Bool.false_eq_true, if_false]
  exact ⟨(saveLocal_pres _ d).1, (saveLocal_pres _ d).2.2.1⟩

theorem save_cache (env : RemoteEnv) (st : StoreState) (d : Aggregate) :
    ((save env st d).2).progressCache = some d := by
  simp only [save]
  split
  · split
    · exact ((saveLocal_pres _ d).2.2.2.2).trans rfl
    · exact ((saveLocal_pres _ d).2.2.2.2).trans ((disableMongo_pres _).1.trans rfl)
  · exact ((saveLocal_pres _ d).2.2.2.2).trans rfl

theorem markLearned_disabled (env : RemoteEnv) (st : StoreState) (w : Int)
    (h : st.useMongoDB = false) :
    ((markLearned env st w).2).useMongoDB = false ∧
    ((markLearned env st w).2).remoteCalls = st.remoteCalls := by
  obtain ⟨h1, h2⟩ := get_disabled env st h
  simp only [markLearned]
  split
  · exact ⟨h1, h2⟩
  · simp only [h1, Bool.false_eq_true, if_false]
    obtain ⟨s1, s2⟩ := save_disabled env (get env st).2 (markLearnedData (get env st).1 w) h1
    exact ⟨s1, s2.trans h2⟩

theorem unmarkLearned_disabled (env : RemoteEnv) (st : StoreState) (w : Int)
    (h : st.useMongoDB = false) :
    ((unmarkLearned env st w).2).useMongoDB = false ∧
    ((unmarkLearned env st w).2).remoteCalls = st.remoteCalls := by
  obtain ⟨h1, h2⟩ := get_disabled env st h
  simp only [unmarkLearned]
  split
  · simp only [h1, Bool.false_eq_true, if_false]
    obtain ⟨s1, s2⟩ := save_disabled env (get env st).2 (unmarkLearnedData (get env st).1 w) h1
    exact ⟨s1, s2.trans h2⟩
  · exact ⟨h1, h2⟩

theorem updateQuizScore_disabled (env : RemoteEnv) (st : StoreState) (w : Int) (c : Bool)
    (h : st.useMongoDB = false) :
    (updateQuizScore env st w c).useMongoDB = false ∧
    (updateQuizScore env st w c).remoteCalls = st.remoteCalls := by
  obtain ⟨h1, h2⟩ := get_disabled env st h
  simp only [updateQuizScore, h, Bool.false_eq_true, if_false]
  obtain ⟨s1, s2⟩ := save_disabled env (get env st).2 (bumpQuizScore (get env st).1 w c) h1
  exact ⟨s1, s2.trans h2⟩

theorem addSession_disabled (env : RemoteEnv) (st : StoreState) (today : Int)
    (sd : SessionInput) (h : st.useMongoDB = false) :
    (addSession env st today sd).useMongoDB = false ∧
    (addSession env st today sd).remoteCalls = st.remoteCalls := by
  obtain ⟨h1, h2⟩ := get_disabled env st h
  simp only [addSession, h, Bool.false_eq_true, if_false]
  obtain ⟨s1, s2⟩ :=
    save_disabled env (get env st).2
      (addSessionData (get env st).1 (mkSession today sd) sd.quizzesTaken) h1
  exact ⟨s1, s2.trans h2⟩

theorem updateStreak_disabled (env : RemoteEnv) (st : StoreState) (today : Int)
    (h : st.useMongoDB = false) :
    ((updateStreak env st today).2).useMongoDB = false ∧
    ((updateStreak env st today).2).remoteCalls = st.remoteCalls := by
  obtain ⟨h1, h2⟩ := get_disabled env st h
  simp only [updateStreak]
  split
  · exact ⟨h1, h2⟩
  · simp only [h1, Bool.false_eq_true, if_false]
    obtain ⟨s1, s2⟩ := save_disabled env (get env st).2 (updateStreakData (get env st).1 today) h1
    exact ⟨s1, s2.trans h2⟩

theorem updatePreference_disabled (env : RemoteEnv) (st : StoreState) (k : String) (v : JVal)
    (h : st.useMongoDB = false) :
    (updatePreference env st k v).useMongoDB = false ∧
    (updatePreference env st k v).remoteCalls = st.remoteCalls := by
  obtain ⟨h1, h2⟩ := get_disabled env st h
  simp only [updatePreference, h1, Bool.false_eq_true, if_false]
  obtain ⟨s1, s2⟩ :=
    save_disabled env (get env st).2
      { (get env st).1 with preferences := setPref k v ((get env st).1).preferences } h1
  exact ⟨s1, s2.trans h2⟩

theorem stepOp_disabled (env : RemoteEnv) (st : StoreState) (op : Op)
    (h : st.useMongoDB = false) :
    (stepOp env st op).useMongoDB = false ∧
    (stepOp env st op).remoteCalls = st.remoteCalls := by
  cases op with
  | opGet => exact get_disabled env st h
  | opSave a => exact save_disabled env st a h
  | opMarkLearned w => exact markLearned_disabled env st w h
  | opUnmarkLearned w => exact unmarkLearned_disabled env st w h
  | opUpdateQuizScore w c => exact updateQuizScore_disabled env st w c h
  | opAddSession today sd => exact addSession_disabled env st today sd h
  | opUpdateStreak today => exact updateStreak_disabled env st today h
  | opUpdatePreference k v => exact updatePreference_disabled env st k v h

/-- C1: once the Store has disabled remote mode (`useMongoDB = false`), no
subsequent Store operation (get, save, markLearned, unmarkLearned,
updateQuizScore, addSession, updateStreak, updatePreference) attempts a
remote call again (the remote-attempt counter is unchanged over any sequence
of calls), and the remote-enabled flag stays false: within `StorageService`
only `init()` — a fresh session — ever sets `useMongoDB` back to a
configured value. -/
theorem remote_disablement_sticky (env : RemoteEnv) (st : StoreState) (ops : List Op)
    (h : st.useMongoDB = false) :
    (runOps env st ops).useMongoDB = false ∧
    (runOps env st ops).remoteCalls = st.remoteCalls := by
  induction ops generalizing st with
  | nil => exact ⟨h, rfl⟩
  | cons op rest ih =>
    obtain ⟨h1, h2⟩ := stepOp_disabled env st op h
    obtain ⟨g1, g2⟩ := ih (stepOp env st op) h1
    exact ⟨g1, g2.trans h2⟩

/-- C1 witness: a disabled session running one call of every operation makes
no remote attempt and stays disabled. -/
theorem remote_disablement_sticky_witness :
    (runOps envOK stDisabled c1Ops).useMongoDB = false ∧
    (runOps envOK stDisabled c1Ops).remoteCalls = stDisabled.remoteCalls :=
  remote_disablement_sticky envOK stDisabled c1Ops rfl

/-- C2 counterexample: the claim says that after a remote fetch failing with
"User not found", remote stays enabled for the session.  In the code the
catch block of `get()` calls `disableMongoFallback` before classifying the
error, so on a fresh MongoDB session whose remote answers "User not found"
the fetch does return (and cache) a fresh default aggregate, but
`useMongoDB` is `false` and `mongoDisabled` is `true` afterwards. -/
theorem get_notFound_disables_remote_cex :
    (get envNF stFresh).1 = getDefault ∧
    ((get envNF stFresh).2).progressCache = some getDefault ∧
    ((get envNF stFresh).2).useMongoDB = false ∧
    ((get envNF stFresh).2).mongoDisabled = true :=
  ⟨rfl, rfl, rfl, rfl⟩

/-- C2 amended: when the remote fetch inside `get()` fails with "User not
found", `get()` returns a fresh default aggregate (not an error) and caches
it, but — like every other remote-fetch failure — it also disables remote
for the rest of the session; failures other than not-found disable remote
and fall back to the local read. -/
theorem get_failure_branch_spec (env : RemoteEnv) (st : StoreState)
    (hc : st.progressCache = none) (hm : st.useMongoDB = true)
    (hd : st.mongoDisabled = false) :
    (env st.remoteCalls = RemoteOutcome.errNotFound →
      get env st =
        (getDefault,
          { st with remoteCalls := st.remoteCalls + 1, mongoDisabled := true,
                    useMongoDB := false, progressCache := some getDefault })) ∧
    (env st.remoteCalls = RemoteOutcome.errOther →
      get env st =
        getLocal { st with remoteCalls := st.remoteCalls + 1, mongoDisabled := true,
                           useMongoDB := false }) := by
  constructor
  · intro he
    unfold get
    rw [hc]
    simp only [hm, if_true, remoteCall, he, disableMongoFallback, hd, Bool.false_eq_true,
      if_false]
  · intro he
    unfold get
    rw [hc]
    simp only [hm, if_true, remoteCall, he, disableMongoFallback, hd, Bool.false_eq_true,
      if_false, hc]

/-- C2 amended witness: the not-found branch at a fresh session. -/
theorem get_failure_branch_spec_witness :
    get envNF stFresh =
      (getDefault,
        { stFresh with remoteCalls := 1, mongoDisabled := true, useMongoDB := false,
                       progressCache := some getDefault }) :=
  (get_failure_branch_spec envNF stFresh rfl rfl rfl).1 rfl

/-- C3: `save(a)` updates `progressCache` to `a` unconditionally (the cache
holds `a` afterwards no matter how the remote and local writes fared), and
an immediately following `get()` — under any remote behaviour — is served
from the cache and returns `a` with the state untouched. -/
theorem save_cache_first_read_after_write (env env' : RemoteEnv) (st : StoreState)
    (a : Aggregate) :
    ((save env st a).2).progressCache = some a ∧
    get env' ((save env st a).2) = (a, (save env st a).2) :=
  ⟨save_cache env st a, get_cached env' _ a (save_cache env st a)⟩

theorem aggInv_default : aggInv getDefault := rfl

theorem markLearnedData_inv (a : Aggregate) (w : Int) : aggInv (markLearnedData a w) := rfl

theorem unmarkLearnedData_inv (a : Aggregate) (w : Int) : aggInv (unmarkLearnedData a w) := rfl

theorem invSome {d a : Aggregate} (hd : aggInv d) (h : some d = some a) : aggInv a := by
  injection h with h2
  exact h2 ▸ hd

theorem stateInv_saveLocal (st : StoreState) (d : Aggregate) (hst : stateInv st)
    (hd : aggInv d) : stateInv (saveLocal st d).2 := by
  unfold saveLocal
  split
  · exact hst
  split
  · exact ⟨hst.1, hst.2⟩
  · exact ⟨hst.1, fun a h => invSome hd h⟩

theorem stateInv_getLocal (st : StoreState) (hst : stateInv st) :
    stateInv (getLocal st).2 ∧ aggInv (getLocal st).1 := by
  unfold getLocal
  split
  · exact ⟨hst, aggInv_default⟩
  split
  · exact ⟨⟨hst.1, hst.2⟩, aggInv_default⟩
  split
  · exact ⟨hst, aggInv_default⟩
  · rename_i parsed heq
    exact ⟨⟨fun a h => invSome (hst.2 parsed heq) h, hst.2⟩, hst.2 parsed heq⟩

theorem stateInv_disable (st : StoreState) (hst : stateInv st) :
    stateInv (disableMongoFallback st) := by
  unfold disableMongoFallback
  split
  · exact hst
  · exact ⟨hst.1, hst.2⟩

theorem stateInv_notfound_state (st : StoreState) (hst : stateInv st) :
    stateInv { disableMongoFallback st with progressCache := some getDefault } := by
  unfold disableMongoFallback
  split
  · exact ⟨fun a h => invSome aggInv_default h, hst.2⟩
  · exact ⟨fun a h => invSome aggInv_default h, hst.2⟩

theorem stateInv_get (env : RemoteEnv) (st : StoreState) (he : envInv env)
    (hst : stateInv st) :
    stateInv (get env st).2 ∧ aggInv (get env st).1 := by
  unfold get
  split
  · rename_i a heq
    exact ⟨hst, hst.1 a heq⟩
  · split
    · simp only [remoteCall]
      split
      · rename_i payload hout
        have hp : aggInv payload := he _ _ hout
        exact ⟨stateInv_saveLocal _ _ ⟨fun a h => invSome hp h, hst.2⟩ hp, hp⟩
      · exact ⟨stateInv_notfound_state _ ⟨hst.1, hst.2⟩, aggInv_default⟩
      · exact stateInv_getLocal _ (stateInv_disable _ ⟨hst.1, hst.2⟩)
    · exact stateInv_getLocal st hst

theorem stateInv_save (env : RemoteEnv) (st : StoreState) (d : Aggregate)
    (hst : stateInv st) (hd : aggInv d) : stateInv (save env st d).2 := by
  simp only [save]
  split
  · split
    · exact stateInv_saveLocal _ _ ⟨fun a h => invSome hd h, hst.2⟩ hd
    · exact stateInv_saveLocal _ _ (stateInv_disable _ ⟨fun a h => invSome hd h, hst.2⟩) hd
  · exact stateInv_saveLocal _ _ ⟨fun a h => invSome hd h, hst.2⟩ hd

theorem stateInv_markLearned (env : RemoteEnv) (st : StoreState) (w : Int)
    (he : envInv env) (hst : stateInv st) : stateInv (markLearned env st w).2 := by
  obtain ⟨hs1, hs2⟩ := stateInv_get env st he hst
  simp only [markLearned]
  split
  · exact hs1
  · split
    · simp only [remoteCall]
      split
      · exact stateInv_saveLocal _ _
          ⟨fun a h => invSome (markLearnedData_inv _ _) h, hs1.2⟩ (markLearnedData_inv _ _)
      · exact stateInv_save _ _ _ (stateInv_disable _ ⟨hs1.1, hs1.2⟩) (markLearnedData_inv _ _)
    · exact stateInv_save _ _ _ hs1 (markLearnedData_inv _ _)

theorem stateInv_unmarkLearned (env : RemoteEnv) (st : StoreState) (w : Int)
    (he : envInv env) (hst : stateInv st) : stateInv (unmarkLearned env st w).2 := by
  obtain ⟨hs1, hs2⟩ := stateInv_get env st he hst
  simp only [unmarkLearned]
  split
  · split
    · simp only [remoteCall]
      split
      · exact stateInv_saveLocal _ _
          ⟨fun a h => invSome (unmarkLearnedData_inv _ _) h, hs1.2⟩ (unmarkLearnedData_inv _ _)
      · exact stateInv_save _ _ _ (stateInv_disable _ ⟨hs1.1, hs1.2⟩) (unmarkLearnedData_inv _ _)
    · exact stateInv_save _ _ _ hs1 (unmarkLearnedData_inv _ _)
  · exact hs1

/-- C4: over any sequence of `markLearned`/`unmarkLearned` calls, whatever
branch each call takes (remote success, remote failure, remote disabled),
`stats.totalWordsLearned` equals `|learned|` in the resulting cached
aggregate — provided every aggregate the Store starts from or receives
(cache, local record, remote payloads) satisfies that invariant, as the
mutating branches all re-establish it by setting the count from the list
length. -/
theorem learned_count_invariant (env : RemoteEnv) (st : StoreState) (ops : List MUOp)
    (he : envInv env) (hst : stateInv st) :
    (∀ a, (runMU env st ops).progressCache = some a →
        a.stats.totalWordsLearned = a.learned.length) ∧
    stateInv (runMU env st ops) := by
  suffices h : stateInv (runMU env st ops) from ⟨h.1, h⟩
  induction ops generalizing st with
  | nil => exact hst
  | cons op rest ih =>
    cases op with
    | mark w => exact ih _ (stateInv_markLearned env st w he hst)
    | unmark w => exact ih _ (stateInv_unmarkLearned env st w he hst)

/-- C4 witness: a concrete mark/unmark sequence from a fresh session against
an always-succeeding remote. -/
theorem learned_count_invariant_witness :
    (∀ a, (runMU envOK stFresh c4Ops).progressCache = some a →
        a.stats.totalWordsLearned = a.learned.length) ∧
    stateInv (runMU envOK stFresh c4Ops) :=
  learned_count_invariant envOK stFresh c4Ops
    (fun n a h => by injection h with h2; exact h2 ▸ aggInv_default)
    ⟨fun a h => Option.noConfusion h, fun a h => Option.noConfusion h⟩

theorem markLearned_already (env : RemoteEnv) (st : StoreState) (data : Aggregate) (w : Int)
    (hc : st.progressCache = some data) (hw : w ∈ data.learned) :
    markLearned env st w = (false, st) := by
  simp only [markLearned, get_cached env st data hc]
  rw [if_pos hw]

theorem unmarkLearned_absent (env : RemoteEnv) (st : StoreState) (data : Aggregate) (w : Int)
    (hc : st.progressCache = some data) (hw : w ∉ data.learned) :
    unmarkLearned env st w = (false, st) := by
  simp only [unmarkLearned, get_cached env st data hc]
  rw [if_neg hw]

theorem markLearned_new (env : RemoteEnv) (st : StoreState) (data : Aggregate) (w : Int)
    (hc : st.progressCache = some data) (hw : w ∉ data.learned) :
    (markLearned env st w).1 = true ∧
    ((markLearned env st w).2).progressCache = some (markLearnedData data w) := by
  simp only [markLearned, get_cached env st data hc]
  rw [if_neg hw]
  split
  · simp only [remoteCall]
    split
    · exact ⟨rfl, ((saveLocal_pres _ _).2.2.2.2).trans rfl⟩
    · exact ⟨rfl, save_cache _ _ _⟩
  · exact ⟨rfl, save_cache _ _ _⟩

/-- C8: with a warm cache holding `data`, `markLearned(w)` is a no-op
returning `false` when `w` is already learned; `unmarkLearned(w)` is a no-op
returning `false` when `w` is absent; and (for a duplicate-free starting
list) calling `markLearned(w)` twice in a row leaves `w` appearing exactly
once in `learned`, the second call returning `false` and changing nothing —
on every remote branch. -/
theorem mark_unmark_idempotent (env env' : RemoteEnv) (st : StoreState) (data : Aggregate)
    (w : Int) (hc : st.progressCache = some data) :
    (w ∈ data.learned → markLearned env st w = (false, st)) ∧
    (w ∉ data.learned → unmarkLearned env st w = (false, st)) ∧
    (data.learned.count w ≤ 1 →
      (markLearned env' (markLearned env st w).2 w).1 = false ∧
      (markLearned env' (markLearned env st w).2 w).2 = (markLearned env st w).2 ∧
      ∀ d, ((markLearned env st w).2).progressCache = some d → d.learned.count w = 1) := by
  refine ⟨fun hw => markLearned_already env st data w hc hw,
          fun hw => unmarkLearned_absent env st data w hc hw, fun hcount => ?_⟩
  by_cases hw : w ∈ data.learned
  · have h1 := markLearned_already env st data w hc hw
    rw [h1]
    have h2 := markLearned_already env' st data w hc hw
    refine ⟨by rw [h2], by rw [h2], ?_⟩
    intro d hd
    rw [hc] at hd
    injection hd with hd2
    subst hd2
    have hpos : 0 < data.learned.count w := List.count_pos_iff.mpr hw
    omega
  · obtain ⟨h1, h2⟩ := markLearned_new env st data w hc hw
    have hmem : w ∈ (markLearnedData data w).learned := by
      simp [markLearnedData]
    have h3 :=
      markLearned_already env' (markLearned env st w).2 (markLearnedData data w) w h2 hmem
    refine ⟨by rw [h3], by rw [h3], ?_⟩
    intro d hd
    rw [h2] at hd
    injection hd with hd2
    subst hd2
    have hz : data.learned.count w = 0 := List.count_eq_zero.mpr hw
    simp [markLearnedData, hz]

/-- C8 witness: marking word 7 twice on a warm default cache. -/
theorem mark_unmark_idempotent_witness :
    (markLearned envOK (markLearned envOK stWarm 7).2 7).1 = false ∧
    (markLearned envOK (markLearned envOK stWarm 7).2 7).2 = (markLearned envOK stWarm 7).2 ∧
    ∀ d, ((markLearned envOK stWarm 7).2).progressCache = some d → d.learned.count 7 = 1 :=
  (mark_unmark_idempotent envOK envOK stWarm getDefault 7 rfl).2.2 (by decide)

theorem addSessionData_sessions (d : Aggregate) (s : SessionRec) (q : Option Nat) :
    (addSessionData d s q).sessions = (s :: d.sessions).take 30 := by
  simp only [addSessionData]
  split
  · rfl
  · rename_i hlen
    exact (List.take_of_length_le (by omega)).symm

theorem take_append_absorb {α : Type} (l m : List α) (n : Nat) :
    (l ++ m.take n).take n = (l ++ m).take n := by
  rw [List.take_append_eq_append_take, List.take_append_eq_append_take, List.take_take,
    Nat.min_eq_left (Nat.sub_le n l.length)]

theorem foldAddSessions_sessions (s : SessionRec) (recs : List SessionRec) :
    ∀ data : Aggregate,
      (foldAddSessions data (s :: recs)).sessions =
        ((s :: recs).reverse ++ data.sessions).take 30 := by
  induction recs generalizing s with
  | nil =>
    intro data
    simp [foldAddSessions, addSessionData_sessions]
  | cons s2 rest ih =>
    intro data
    have h1 : foldAddSessions data (s :: s2 :: rest) =
        foldAddSessions (addSessionData data s none) (s2 :: rest) := rfl
    rw [h1, ih s2, addSessionData_sessions, take_append_absorb]
    congr 1
    simp

theorem addSession_cache (env : RemoteEnv) (st : StoreState) (today : Int) (sd : SessionInput)
    (data : Aggregate) (hc : st.progressCache = some data) :
    (addSession env st today sd).progressCache =
      some (addSessionData data (mkSession today sd) sd.quizzesTaken) := by
  simp only [addSession]
  split
  · simp only [remoteCall]
    split
    · rw [get_cached env { st with remoteCalls := st.remoteCalls + 1 } data hc]
      exact ((saveLocal_pres _ _).2.2.2.2).trans rfl
    · rw [get_cached env (disableMongoFallback { st with remoteCalls := st.remoteCalls + 1 })
        data ((disableMongo_pres _).1.trans hc)]
      exact save_cache _ _ _
  · rw [get_cached env st data hc]
    exact save_cache _ _ _

/-- C5: `addSession` always inserts the new record at the front of `sessions`
and truncates from the back to at most 30 entries (on every remote branch,
the new cached aggregate's session list is `take 30 (newRecord ::
oldSessions)`); starting from any aggregate, after 30 or more sequential
`addSession` calls the list is exactly the 30 most recently added records in
most-recent-first order (`recs.reverse.take 30`), with length exactly 30. -/
theorem addSession_cap_spec :
    (∀ (d : Aggregate) (s : SessionRec) (q : Option Nat),
        (addSessionData d s q).sessions.length ≤ 30) ∧
    (∀ (env : RemoteEnv) (st : StoreState) (today : Int) (sd : SessionInput)
        (data : Aggregate), st.progressCache = some data →
        (addSession env st today sd).progressCache =
          some (addSessionData data (mkSession today sd) sd.quizzesTaken)) ∧
    (∀ (data : Aggregate) (recs : List SessionRec), 30 ≤ recs.length →
        (foldAddSessions data recs).sessions = recs.reverse.take 30 ∧
        (foldAddSessions data recs).sessions.length = 30) := by
  refine ⟨?_, addSession_cache, ?_⟩
  · intro d s q
    rw [addSessionData_sessions]
    simp only [List.length_take]
    exact Nat.min_le_left _ _
  · intro data recs h30
    cases recs with
    | nil => simp at h30
    | cons s rest =>
      have h := foldAddSessions_sessions s rest data
      have hlen : 30 ≤ ((s :: rest).reverse).length := by simpa using h30
      constructor
      · rw [h, List.take_append_of_le_length hlen]
      · rw [h, List.length_take, List.length_append]
        omega

/-- C5 witness: 40 sequential `addSession` calls from the default aggregate
leave exactly the 30 most recent records. -/
theorem addSession_cap_spec_witness :
    (foldAddSessions getDefault (List.replicate 40 sampleSession)).sessions =
      (List.replicate 40 sampleSession).reverse.take 30 ∧
    (foldAddSessions getDefault (List.replicate 40 sampleSession)).sessions.length = 30 :=
  addSession_cap_spec.2.2 getDefault (List.replicate 40 sampleSession) (by simp)

theorem calculateStreak_yesterday (today : Int) (d : Option Int) (h : d = some (today - 1)) :
    calculateStreak d today = true := by
  subst h
  simp only [calculateStreak]
  have h1 : today - (today - 1) = 1 := by omega
  rw [h1]
  rfl

theorem calculateStreak_broken (today : Int) (o : Option Int)
    (h : o = none ∨ ∃ d, o = some d ∧ 1 < today - d) :
    calculateStreak o today = false := by
  rcases h with h | ⟨d, hd, hgap⟩
  · subst h; rfl
  · subst hd
    simp only [calculateStreak]
    have h0 : (today - d == 0) = false := by
      rw [beq_eq_false_iff_ne]; omega
    have h1 : (today - d == 1) = false := by
      rw [beq_eq_false_iff_ne]; omega
    rw [h0, h1]
    rfl

theorem updateStreak_state (env : RemoteEnv) (st : StoreState) (today : Int)
    (data : Aggregate) (hc : st.progressCache = some data) :
    ((updateStreak env st today).2).progressCache = some (updateStreakAgg data today) ∧
    (updateStreak env st today).1 = (updateStreakAgg data today).stats.currentStreak := by
  by_cases hdate : data.stats.lastStudyDate = some today
  · have hagg : updateStreakAgg data today = data := by
      rw [updateStreakAgg, if_pos hdate]
    simp only [updateStreak, get_cached env st data hc, if_pos hdate, hagg]
    exact ⟨hc, by trivial⟩
  · have hagg : updateStreakAgg data today = updateStreakData data today := by
      rw [updateStreakAgg, if_neg hdate]
    simp only [updateStreak, get_cached env st data hc, if_neg hdate, hagg]
    split
    · simp only [remoteCall]
      split
      · exact ⟨((saveLocal_pres _ _).2.2.2.2).trans rfl, rfl⟩
      · exact ⟨save_cache _ _ _, rfl⟩
    · exact ⟨save_cache _ _ _, rfl⟩

/-- C6: on every remote branch `updateStreak()` turns the cached aggregate
into `updateStreakAgg data today` and returns its `currentStreak`; at the
aggregate level — if `lastStudyDate` is already today the aggregate is
unchanged (no re-increment); if it was exactly yesterday `currentStreak`
increases by 1; if there is no prior date or the gap exceeds one day
`currentStreak` resets to 1; in the mutating cases `longestStreak` becomes
the maximum of its previous value and the new `currentStreak`, and
`lastStudyDate` is stamped to today. -/
theorem updateStreak_spec :
    (∀ (env : RemoteEnv) (st : StoreState) (today : Int) (data : Aggregate),
        st.progressCache = some data →
        ((updateStreak env st today).2).progressCache = some (updateStreakAgg data today) ∧
        (updateStreak env st today).1 = (updateStreakAgg data today).stats.currentStreak) ∧
    (∀ (data : Aggregate) (today : Int), data.stats.lastStudyDate = some today →
        updateStreakAgg data today = data) ∧
    (∀ (data : Aggregate) (today : Int), data.stats.lastStudyDate = some (today - 1) →
        (updateStreakAgg data today).stats.currentStreak = data.stats.currentStreak + 1 ∧
        (updateStreakAgg data today).stats.longestStreak =
          max data.stats.longestStreak (data.stats.currentStreak + 1) ∧
        (updateStreakAgg data today).stats.lastStudyDate = some today) ∧
    (∀ (data : Aggregate) (today : Int),
        (data.stats.lastStudyDate = none ∨
          ∃ d, data.stats.lastStudyDate = some d ∧ 1 < today - d) →
        (updateStreakAgg data today).stats.currentStreak = 1 ∧
        (updateStreakAgg data today).stats.longestStreak = max data.stats.longestStreak 1 ∧
        (updateStreakAgg data today).stats.lastStudyDate = some today) := by
  refine ⟨updateStreak_state, ?_, ?_, ?_⟩
  · intro data today h
    rw [updateStreakAgg, if_pos h]
  · intro data today h
    have hne : data.stats.lastStudyDate ≠ some today := by
      rw [h]; intro hq; injection hq with hq2; omega
    have hcs := calculateStreak_yesterday today _ h
    rw [updateStreakAgg, if_neg hne]
    refine ⟨?_, ?_, rfl⟩
    · simp [updateStreakData, hcs]
    · simp only [updateStreakData, hcs, if_true]
      split <;> omega
  · intro data today h
    have hne : data.stats.lastStudyDate ≠ some today := by
      rcases h with h | ⟨d, hd, hgap⟩
      · rw [h]; exact fun hq => Option.noConfusion hq
      · rw [hd]; intro hq; injection hq with hq2; omega
    have hcs := calculateStreak_broken today _ h
    rw [updateStreakAgg, if_neg hne]
    refine ⟨?_, ?_, rfl⟩
    · simp [updateStreakData, hcs]
    · simp only [updateStreakData, hcs, Bool.false_eq_true, if_false]
      split <;> omega

/-- C6 witness: last studied yesterday (day 4), updating on day 5 increments
the streak. -/
theorem updateStreak_spec_witness :
    (updateStreakAgg yesterdayAgg 5).stats.currentStreak =
      yesterdayAgg.stats.currentStreak + 1 ∧
    (updateStreakAgg yesterdayAgg 5).stats.longestStreak =
      max yesterdayAgg.stats.longestStreak (yesterdayAgg.stats.currentStreak + 1) ∧
    (updateStreakAgg yesterdayAgg 5).stats.lastStudyDate = some 5 :=
  updateStreak_spec.2.2.1 yesterdayAgg 5 rfl

theorem save_saveCalls (env : RemoteEnv) (st : StoreState) (d : Aggregate) :
    ((save env st d).2).saveCalls = st.saveCalls + 1 := by
  simp only [save]
  split
  · split
    · exact ((saveLocal_pres _ _).2.2.2.1).trans rfl
    · exact ((saveLocal_pres _ _).2.2.2.1).trans (((disableMongo_pres _).2.2.2.1).trans rfl)
  · exact ((saveLocal_pres _ _).2.2.2.1).trans rfl

/-- C9 counterexample: the claim says every Statistics Aggregator
computation, including the streak display, is a pure read.  But the streak
display goes through `getStreak()` (`StatsMode.renderStreak` calls
`StorageService.getStreak`), and on an aggregate whose streak is stale (last
studied day 0, read on day 3, `currentStreak = 5`) `getStreak` resets
`currentStreak` to 0 and performs a `save()` through the Store: the ghost
save counter increments and the cached aggregate changes. -/
theorem stats_render_not_pure_cex :
    ((getStreak envOK stStale 3).2).saveCalls = stStale.saveCalls + 1 ∧
    ((getStreak envOK stStale 3).2).progressCache ≠ stStale.progressCache := by
  constructor
  · rfl
  · intro h
    have h2 : ((getStreak envOK stStale 3).2).progressCache =
        some { staleAgg with stats := { staleAgg.stats with currentStreak := 0 } } := rfl
    rw [h2] at h
    have h3 := congrArg (fun o => Option.map (fun a : Aggregate => a.stats.currentStreak) o) h
    simp [stStale, staleAgg, stFresh, getDefault] at h3

/-- C9 amended: percentage learned, weekly word count and average quiz score
are pure reads (with a warm cache they return values computed from the live
aggregate and leave the Store state untouched — percentage learned via
`getLearnedCount()` and `Utils.calculatePercentage`); the streak display is
a pure read only while the stored streak is fresh — when `lastStudyDate` is
neither today nor within streak continuation and `currentStreak > 0`,
`getStreak` resets `currentStreak` to 0 and saves through the Store. -/
theorem stats_reads_spec :
    (∀ (env : RemoteEnv) (st : StoreState) (total : Nat) (data : Aggregate),
        st.progressCache = some data →
        getLearnedCount env st = (data.learned.length, st) ∧
        percentageLearned env st total =
          (calculatePercentage data.learned.length total, st)) ∧
    (∀ (env : RemoteEnv) (st : StoreState) (today : Int) (data : Aggregate),
        st.progressCache = some data →
        getWordsLearnedThisWeek env st today = (wordsLearnedThisWeek data today, st)) ∧
    (∀ (env : RemoteEnv) (st : StoreState) (data : Aggregate),
        st.progressCache = some data →
        getAverageQuizScore env st = (averageQuizScore data, st)) ∧
    (∀ (env : RemoteEnv) (st : StoreState) (today : Int) (data : Aggregate),
        st.progressCache = some data →
        (data.stats.lastStudyDate = some today ∨
            calculateStreak data.stats.lastStudyDate today = true ∨
            data.stats.currentStreak = 0 →
          getStreak env st today = (data.stats.currentStreak, st)) ∧
        (data.stats.lastStudyDate ≠ some today →
          calculateStreak data.stats.lastStudyDate today = false →
          0 < data.stats.currentStreak →
          (getStreak env st today).1 = 0 ∧
          ((getStreak env st today).2).saveCalls = st.saveCalls + 1 ∧
          ((getStreak env st today).2).progressCache =
            some { data with stats := { data.stats with currentStreak := 0 } })) := by
  refine ⟨?_, ?_, ?_, ?_⟩
  · intro env st total data hc
    constructor
    · simp only [getLearnedCount, get_cached env st data hc]
    · simp only [percentageLearned, getLearnedCount, get_cached env st data hc]
  · intro env st today data hc
    simp only [getWordsLearnedThisWeek, get_cached env st data hc]
  · intro env st data hc
    simp only [getAverageQuizScore, get_cached env st data hc]
  · intro env st today data hc
    constructor
    · intro hdisj
      simp only [getStreak, get_cached env st data hc]
      by_cases hdate : data.stats.lastStudyDate = some today
      · rw [if_pos hdate]
      · rw [if_neg hdate]
        have hcond : ¬((!calculateStreak data.stats.lastStudyDate today) = true ∧
            data.stats.currentStreak > 0) := by
          rcases hdisj with h | h | h
          · exact absurd h hdate
          · intro hq
            have hb := hq.1
            rw [h] at hb
            exact Bool.noConfusion hb
          · intro hq
            have := hq.2
            omega
        rw [if_neg hcond]
    · intro hne hcs hpos
      simp only [getStreak, get_cached env st data hc]
      rw [if_neg hne]
      have hcond : (!calculateStreak data.stats.lastStudyDate today) = true ∧
          data.stats.currentStreak > 0 := ⟨by rw [hcs]; rfl, hpos⟩
      rw [if_pos hcond]
      exact ⟨rfl, save_saveCalls _ _ _, save_cache _ _ _⟩

/-- C9 amended witness: the stale-streak write path at a concrete state. -/
theorem stats_reads_spec_witness :
    (getStreak envOK stStale 3).1 = 0 ∧
    ((getStreak envOK stStale 3).2).saveCalls = stStale.saveCalls + 1 ∧
    ((getStreak envOK stStale 3).2).progressCache =
      some { staleAgg with stats := { staleAgg.stats with currentStreak := 0 } } :=
  (stats_reads_spec.2.2.2 envOK stStale 3 staleAgg rfl).2 (by decide) (by decide) (by decide)

/-- C10: with a warm cache holding `data`, `getPreference(key)` simply
returns `data.preferences[key]` for every key other than
`certificationKey`, and also for `certificationKey` itself when the cached
value is truthy; only when the cached `certificationKey` is falsy while
remote mode is enabled, private mode is off and the local read succeeds does
it consult the user's namespaced local backup, and if that backup holds a
truthy certification key it writes the key into the cached aggregate's
preferences and returns it. -/
theorem getPreference_spec (env : RemoteEnv) (st : StoreState) (data : Aggregate)
    (hc : st.progressCache = some data) :
    (∀ k, k ≠ "certificationKey" →
        getPreference env st k = (lookupPref data.preferences k, st)) ∧
    (jvOptFalsy (lookupPref data.preferences "certificationKey") = false →
        getPreference env st "certificationKey" =
          (lookupPref data.preferences "certificationKey", st)) ∧
    (jvOptFalsy (lookupPref data.preferences "certificationKey") = true →
      st.useMongoDB = true → st.isPrivateMode = false → st.localBroken = false →
      ∀ parsed lv, st.localData = some parsed →
        lookupPref parsed.preferences "certificationKey" = some lv → lv.falsy = false →
        getPreference env st "certificationKey" =
          (some lv,
            { st with
                progressCache := some
                  { data with
                      preferences := setPref "certificationKey" lv data.preferences } })) := by
  refine ⟨?_, ?_, ?_⟩
  · intro k hk
    simp only [getPreference, get_cached env st data hc]
    rw [if_neg (fun hq => hk hq.1)]
  · intro hv
    simp only [getPreference, get_cached env st data hc]
    rw [if_neg (fun hq => by rw [hv] at hq; exact Bool.noConfusion hq.2.1)]
  · intro hv hm hp hb parsed lv hld hlk hlf
    simp only [getPreference, get_cached env st data hc]
    rw [if_pos ⟨by trivial, hv, hm, fun h => by rw [hp] at h; exact Bool.noConfusion h⟩]
    rw [if_neg (fun h => by rw [hb] at h; exact Bool.noConfusion h)]
    simp only [hld, hlk]
    rw [if_neg (fun h => by rw [hlf] at h; exact Bool.noConfusion h)]

/-- C10 witness: a cache missing the certification key recovers it from the
local backup record. -/
theorem getPreference_spec_witness :
    getPreference envOK stCert "certificationKey" =
      (some (JVal.str "CERT-1"),
        { stCert with progressCache := some backupAgg }) :=
  (getPreference_spec envOK stCert getDefault rfl).2.2 (by decide) rfl rfl rfl backupAgg
    (JVal.str "CERT-1") rfl (by decide) (by decide)

theorem lookupField_setField (k k' : String) (v : Json) (fs : List (String × Json)) :
    lookupField (setField k v fs) k' = if k' = k then some v else lookupField fs k' := by
  induction fs with
  | nil =>
    simp only [setField, lookupField]
    by_cases h : k = k'
    · rw [if_pos h, if_pos h.symm]
    · rw [if_neg h, if_neg (fun hq => h hq.symm)]
  | cons p rest ih =>
    simp only [setField]
    by_cases hp : p.1 = k
    · rw [if_pos hp]
      simp only [lookupField]
      by_cases h : k = k'
      · rw [if_pos h, if_pos h.symm]
      · rw [if_neg h, if_neg (fun hq => h hq.symm), if_neg (fun hq => h (hp ▸ hq))]
    · rw [if_neg hp]
      simp only [lookupField]
      by_cases hq : p.1 = k'
      · have hk : ¬ k' = k := fun he => hp (hq.trans he)
        rw [if_pos hq, if_neg hk, if_pos hq]
      · rw [if_neg hq, ih]
        by_cases h : k' = k
        · rw [if_pos h, if_pos h]
        · rw [if_neg h, if_neg h, if_neg hq]

theorem lookupField_eq_none (fs : List (String × Json)) (k : String)
    (h : k ∉ fs.map Prod.fst) : lookupField fs k = none := by
  induction fs with
  | nil => rfl
  | cons p rest ih =>
    simp only [List.map_cons, List.mem_cons, not_or] at h
    simp only [lookupField]
    rw [if_neg (fun hq => h.1 hq.symm), ih h.2]

theorem mergeLoop_cons (t : Json) (res : List (String × Json)) (k1 : String) (v1 : Json)
    (rest : List (String × Json)) :
    mergeLoop t res ((k1, v1) :: rest) =
      mergeLoop t (setField k1 (mergeVal t k1 v1) res) rest := by
  cases v1 <;> simp [mergeLoop, mergeVal, isMergeObj, deepMerge, objFields]

theorem mergeLoop_lookup (t : Json) (k : String) :
    ∀ (src res : List (String × Json)), (src.map Prod.fst).Nodup →
      lookupField (mergeLoop t res src) k =
        (match lookupField src k with
         | some v => some (mergeVal t k v)
         | none => lookupField res k) := by
  intro src
  induction src with
  | nil =>
    intro res hnd
    simp [mergeLoop, lookupField]
  | cons p rest ih =>
    intro res hnd
    obtain ⟨k1, v1⟩ := p
    have hnd2 : ((k1, v1) :: rest).map Prod.fst = k1 :: rest.map Prod.fst := rfl
    rw [hnd2] at hnd
    obtain ⟨hnotin, hndr⟩ := List.nodup_cons.mp hnd
    rw [mergeLoop_cons, ih _ hndr]
    by_cases h : k1 = k
    · subst h
    /- the freshly written key cannot recur in the remaining source fields -/
      rw [lookupField_eq_none rest k1 hnotin]
      simp [lookupField, lookupField_setField]
    · cases hl : lookupField rest k with
      | some v => simp [lookupField, fun hq : k1 = k => h hq, hl]
      | none =>
        simp only [lookupField, hl, lookupField_setField]
        rw [if_neg (fun hq : k = k1 => h hq.symm), if_neg h]

/-- C7: `_deepMerge(target, source)` (a) leaves every key missing from the
source at its target/default value — a stored aggregate missing a preference
key present in current defaults gets the default — and (b) maps every key
the source does contain to `mergeVal`: plain-object values are merged
key-by-key recursively against `target[key] || {}` rather than replacing
the nested default object wholesale, and all other stored values are kept
verbatim. -/
theorem deepMerge_spec (t s : Json) (k : String)
    (hnd : ((objFields s).map Prod.fst).Nodup) :
    (lookupField (objFields s) k = none →
        lookupField (objFields (deepMerge t s)) k = lookupField (objFields t) k) ∧
    (∀ v, lookupField (objFields s) k = some v →
        lookupField (objFields (deepMerge t s)) k = some (mergeVal t k v)) := by
  have he : objFields (deepMerge t s) = mergeLoop t (objFields t) (objFields s) := rfl
  have h := mergeLoop_lookup t k (objFields s) (objFields t) hnd
  constructor
  · intro hnone
    rw [he, h, hnone]
  · intro v hsome
    rw [he, h, hsome]

/-- C7 witness: merging a stored preference object that has only a `theme`
over the default preference object keeps the stored theme and fills the
missing `enableSwipe` key from the defaults. -/
theorem deepMerge_spec_witness :
    lookupField
        (objFields (deepMerge defaultPrefsJson (Json.obj [("theme", Json.str "dark")])))
        "enableSwipe" = lookupField (objFields defaultPrefsJson) "enableSwipe" ∧
    lookupField
        (objFields (deepMerge defaultPrefsJson (Json.obj [("theme", Json.str "dark")])))
        "theme" = some (mergeVal defaultPrefsJson "theme" (Json.str "dark")) :=
  ⟨(deepMerge_spec defaultPrefsJson (Json.obj [("theme", Json.str "dark")]) "enableSwipe"
      (by simp [objFields])).1 rfl,
   (deepMerge_spec defaultPrefsJson (Json.obj [("theme", Json.str "dark")]) "theme"
      (by simp [objFields])).2 (Json.str "dark") rfl⟩

end VocabMaster
